import Mathlib

/-!
Shallow embedding of `src/bbc_crawler.py`, a small BBC News crawler.

The program has three parts:
* `parse_articles` — scans the anchors of an HTML page, keeps hrefs that
  point into the news section, resolves them against the crawler's base URL
  and deduplicates by resolved URL;
* `fetch_rss` — wraps the external feed parser: fails on the `bozo` flag and
  otherwise converts feed entries into records, skipping entries with an
  empty title or link;
* `main` — tries the RSS path, falls back to fetch + HTML parsing on any
  exception, and truncates the result with the Python slice `articles[:limit]`.

External capabilities (HTTP, BeautifulSoup, feedparser, `urllib.parse.urljoin`)
are not part of the repository; they are modelled explicitly below.  Python
dictionaries are modelled as ordered association lists so that the set of keys
and their insertion order are visible; Python exceptions become `Except`.
-/

/-- Python dictionaries with string keys and values, as the crawler builds
them: an ordered list of key/value pairs (insertion order preserved). -/
abbrev Dict := List (String × String)

/-- Value stored under key `k`, following Python dict lookup (first match). -/
def dictGet (r : Dict) (k : String) : Option String :=
  (r.find? (fun p => p.1 == k)).map (fun p => p.2)

/-- The keys of a record, in insertion order (Python `dict` key order). -/
def dictKeys (r : Dict) : List String := r.map (fun p => p.1)

/-- Python `str.strip()`: remove leading and trailing whitespace. -/
def pyStrip (s : String) : String :=
  String.mk (((s.data.dropWhile Char.isWhitespace).reverse.dropWhile Char.isWhitespace).reverse)

/-- Python `str.startswith(p)`: `p` is a prefix of `s`. -/
def strStartsWith (s p : String) : Bool := p.data.isPrefixOf s.data

/-- Characters of the authority part: everything up to the first `/`. -/
def takeAuthority : List Char → List Char
  | [] => []
  | c :: cs => if c = '/' then [] else c :: takeAuthority cs

/-- Scheme and authority of an absolute URL: everything up to the first `/`
after the `://` separator (the whole string if no separator occurs). -/
def schemeAuthChars : List Char → List Char
  | ':' :: '/' :: '/' :: cs => ':' :: '/' :: '/' :: takeAuthority cs
  | c :: cs => c :: schemeAuthChars cs
  | [] => []

/-- Characters of a URL up to and including the last `/` (its directory). -/
def dropLastSegment (l : List Char) : List Char :=
  (l.reverse.dropWhile (fun c => c ≠ '/')).reverse

/-- Split a character list at every `/`, Python `str.split("/")`: the empty
list splits to one empty segment, and every separator opens a new segment. -/
def splitSlash : List Char → List (List Char)
  | [] => [[]]
  | c :: cs =>
    if c = '/' then [] :: splitSlash cs
    else
      match splitSlash cs with
      | [] => [[c]]
      | s :: rest => (c :: s) :: rest

/-- The dot-segment resolution loop of `urllib.parse.urljoin` (RFC 3986):
`..` pops the last resolved segment (and is ignored at the root), `.` is
dropped, any other segment is appended. -/
def resolveSegments : List (List Char) → List (List Char) → List (List Char)
  | acc, [] => acc
  | acc, seg :: rest =>
    if seg = ['.', '.'] then resolveSegments acc.dropLast rest
    else if seg = ['.'] then resolveSegments acc rest
    else resolveSegments (acc ++ [seg]) rest

/-- Resolution of a root-relative reference's path exactly as
`urllib.parse.urljoin` computes it: split on `/`, remove dot segments,
re-append an empty segment when the reference ends in a dot segment (the
trailing slash), rejoin with `/` (falling back to `/` when the join is
empty), and restore the leading `/` when over-popping consumed it. -/
def resolvePath (path : List Char) : List Char :=
  let segments := splitSlash path
  let popped := resolveSegments [] segments
  let resolved :=
    match segments.getLast? with
    | some seg => if seg = ['.'] ∨ seg = ['.', '.'] then popped ++ [[]] else popped
    | none => popped
  let joined := List.intercalate ['/'] resolved
  let joined := if joined = [] then ['/'] else joined
  if joined.head? = some '/' then joined else '/' :: joined

/-- Modelled from the spec: the crawler delegates URL resolution to an
external "URL-join utility implementing standard relative-to-absolute
resolution semantics" (`urllib.parse.urljoin`), whose code is not part of
this repository.  The model follows CPython's algorithm on the reference
shapes the extractor can pass (its filter only accepts hrefs starting with
`/news` or `https://www.bbc.com/news`): a reference carrying a scheme is
returned unchanged — CPython round-trips it through parse/unparse with no
dot-segment removal — and a root-relative reference is joined to the scheme
and authority of the base URL after RFC 3986 dot-segment removal, so
`/news/../sport` resolves to `https://www.bbc.com/sport`.  Not modelled:
separate query/fragment splitting (dot-segment removal here applies to the
whole root-relative reference), network-path references (`//host/…`, which
the extractor's filter never accepts), and the merge branch for relative
references without a leading `/` (also unreachable behind the filter),
which is approximated by appending to the base URL's directory. -/
def urljoin (base url : String) : String :=
  if strStartsWith url "http://" || strStartsWith url "https://" then url
  else if strStartsWith url "/" then
    String.mk (schemeAuthChars base.data ++ resolvePath url.data)
  else String.mk (dropLastSegment base.data) ++ url

/-- Module constant `BBC_NEWS_URL`. -/
def BBC_NEWS_URL : String := "https://www.bbc.com/news"

/-- Module constant `BBC_RSS_URL`. -/
def BBC_RSS_URL : String := "https://feeds.bbci.co.uk/news/rss.xml"

/-- An anchor element carrying an href, as produced by the external HTML
parsing capability for the query `soup.select("a[href]")`: its `href`
attribute and its visible text (`link.get_text()`). -/
structure Anchor where
  href : String
  text : String
deriving DecidableEq

/-- Loop body of `BBCNewsCrawler.parse_articles`: walk the anchors in document
order, carrying the list of already recorded URLs (`seen_urls`). -/
def parse_articles_loop (base : String) : List Anchor → List String → List Dict
  | [], _ => []
  | link :: rest, seen_urls =>
    let href := pyStrip link.href
    if href = "" then parse_articles_loop base rest seen_urls
    else if !(strStartsWith href "/news") && !(strStartsWith href "https://www.bbc.com/news") then
      parse_articles_loop base rest seen_urls
    else
      let url := urljoin base href
      if url ∈ seen_urls then parse_articles_loop base rest seen_urls
      else
        let title := pyStrip link.text
        if title = "" then parse_articles_loop base rest seen_urls
        else [("title", title), ("url", url)] :: parse_articles_loop base rest (url :: seen_urls)

/-- `BBCNewsCrawler.parse_articles`: the anchor list stands for the output of
the external HTML parser on the document, in document order; `base` is the
crawler's `base_url`. -/
def parse_articles (base : String) (anchors : List Anchor) : List Dict :=
  parse_articles_loop base anchors []

/-- A feed entry as the external feed-parsing capability reports it: each of
the four fields that `fetch_rss` reads may be absent (`entry.get(k, "")`
returns `""` exactly when the field is `none` here). -/
structure Entry where
  title : Option String
  link : Option String
  published : Option String
  summary : Option String
deriving DecidableEq

/-- The parsed feed object: the `bozo` malformed-content flag and the entries. -/
structure Feed where
  bozo : Bool
  entries : List Entry
deriving DecidableEq

/-- Loop body of `BBCNewsCrawler.fetch_rss`: convert entries in feed order,
skipping entries whose stripped title or link is empty. -/
def fetch_rss_loop : List Entry → List Dict
  | [] => []
  | entry :: rest =>
    let title := pyStrip (entry.title.getD "")
    let link := pyStrip (entry.link.getD "")
    if title = "" ∨ link = "" then fetch_rss_loop rest
    else
      [("title", title), ("url", link),
        ("published", entry.published.getD ""), ("summary", entry.summary.getD "")]
        :: fetch_rss_loop rest

/-- `BBCNewsCrawler.fetch_rss`: the `feed` argument stands for the result of
the external `feedparser.parse` call on the requested URL; the `ValueError`
raised on the bozo flag becomes `Except.error`. -/
def fetch_rss (feed : Feed) : Except String (List Dict) :=
  if feed.bozo then Except.error "Failed to parse RSS feed"
  else Except.ok (fetch_rss_loop feed.entries)

/-- Python list slicing `l[:limit]` for an arbitrary integer `limit`: a
non-negative `limit` keeps the first `limit` elements; a negative `limit`
keeps everything except the last `|limit|` elements. -/
def pySliceTo (l : List Dict) (limit : Int) : List Dict :=
  if 0 ≤ limit then l.take limit.toNat else l.take (l.length - limit.natAbs)

/-- The `main` orchestrator (Lean reserves the name `main`).  `feed` stands
for what `feedparser.parse` returns on `args.rss_url`; `fetchResult` for the
outcome of `crawler.fetch()` on the homepage (`Except.error` when the request
raises); `select` for the external HTML parser turning the fetched page into
its anchor list.  The crawler is constructed with the default base URL, the
`try/except` becomes a `match`, and the program prints
`articles[: args.limit]`. -/
def crawler_main (feed : Feed) (fetchResult : Except String String)
    (select : String → List Anchor) (limit : Int) : Except String (List Dict) :=
  match fetch_rss feed with
  | Except.ok articles => Except.ok (pySliceTo articles limit)
  | Except.error _ =>
    match fetchResult with
    | Except.ok html => Except.ok (pySliceTo (parse_articles BBC_NEWS_URL (select html)) limit)
    | Except.error e => Except.error e

/-- The article list `main` assembles before truncation: the RSS records when
the feed path succeeds, otherwise the HTML fallback records, otherwise the
fallback's error. -/
def crawl_articles (feed : Feed) (fetchResult : Except String String)
    (select : String → List Anchor) : Except String (List Dict) :=
  match fetch_rss feed with
  | Except.ok articles => Except.ok articles
  | Except.error _ =>
    match fetchResult with
    | Except.ok html => Except.ok (parse_articles BBC_NEWS_URL (select html))
    | Except.error e => Except.error e

/-- The href acceptance test of `parse_articles`, on the stripped href: it
must start with `/news` or with `https://www.bbc.com/news`. -/
def acceptedHref (link : Anchor) : Bool :=
  strStartsWith (pyStrip link.href) "/news" ||
    strStartsWith (pyStrip link.href) "https://www.bbc.com/news"

/-- The anchor that claims the resolved URL `u` in an extraction pass: its
stripped href is accepted and resolves to `u`, and its stripped text is
non-empty (so it actually produces a record). -/
def producesFor (base : String) (u : String) (link : Anchor) : Bool :=
  acceptedHref link && (urljoin base (pyStrip link.href) == u) && (pyStrip link.text != "")

/-- Per-entry body of the `fetch_rss` loop as a partial function: `none` when
the entry is skipped, otherwise the record built from it. -/
def rss_emit (entry : Entry) : Option Dict :=
  let title := pyStrip (entry.title.getD "")
  let link := pyStrip (entry.link.getD "")
  if title = "" ∨ link = "" then none
  else some [("title", title), ("url", link),
    ("published", entry.published.getD ""), ("summary", entry.summary.getD "")]

/-!
Helper lemmas about strings, prefixes, and the two extraction loops.
-/

/-- A string is empty exactly when its character list is. -/
theorem string_empty_iff_data {s : String} : s = "" ↔ s.data = [] := by
  constructor
  · intro h; rw [h]
  · intro h; exact String.ext h

/-- A string with a non-empty prefix is non-empty. -/
theorem strStartsWith_ne_empty {s p : String} (h : strStartsWith s p = true) (hp : p ≠ "") :
    s ≠ "" := by
  intro hs
  apply hp
  rw [string_empty_iff_data] at hs ⊢
  have hpq : p.data <+: s.data := List.isPrefixOf_iff_prefix.mp h
  rw [hs] at hpq
  exact List.prefix_nil.mp hpq

/-- Appending a non-empty string yields a non-empty string. -/
theorem str_append_ne_empty (a b : String) (hb : b ≠ "") : a ++ b ≠ "" := by
  intro h
  apply hb
  rw [string_empty_iff_data] at h ⊢
  rw [String.data_append] at h
  exact (List.append_eq_nil.mp h).2

/-- Falling back to `/` on an empty join never yields the empty list. -/
theorem fallback_slash_ne_nil (l : List Char) : (if l = [] then ['/'] else l) ≠ [] := by
  split
  · simp
  · assumption

/-- Restoring the leading slash never yields the empty list. -/
theorem ite_slash_ne_nil (j : List Char) (hj : j ≠ []) :
    (if j.head? = some '/' then j else '/' :: j) ≠ [] := by
  split
  · exact hj
  · simp

/-- A resolved root-relative path is never empty. -/
theorem resolvePath_ne_nil (path : List Char) : resolvePath path ≠ [] :=
  ite_slash_ne_nil _ (fallback_slash_ne_nil _)

/-- `urljoin` never returns an empty URL for a non-empty href. -/
theorem urljoin_ne_empty (base href : String) (h : href ≠ "") : urljoin base href ≠ "" := by
  unfold urljoin
  split
  · exact h
  · split
    · intro hc
      rw [string_empty_iff_data] at hc
      exact resolvePath_ne_nil href.data (List.append_eq_nil.mp hc).2
    · exact str_append_ne_empty _ _ h

/-- Looking up `title` in an HTML-path record. -/
theorem dictGet_title (t u : String) : dictGet [("title", t), ("url", u)] "title" = some t := rfl

/-- Looking up `url` in an HTML-path record. -/
theorem dictGet_url (t u : String) : dictGet [("title", t), ("url", u)] "url" = some u := rfl

/-- Looking up `published` in an RSS-path record. -/
theorem dictGet_published (t u p s : String) :
    dictGet [("title", t), ("url", u), ("published", p), ("summary", s)] "published" = some p := rfl

/-- Looking up `summary` in an RSS-path record. -/
theorem dictGet_summary (t u p s : String) :
    dictGet [("title", t), ("url", u), ("published", p), ("summary", s)] "summary" = some s := rfl

/-- Boolean de Morgan step used to read the loop's skip condition. -/
theorem bool_not_and_false (a b : Bool) (h : (!a && !b) = false) : (a || b) = true := by
  revert h; cases a <;> cases b <;> decide

/-- Boolean de Morgan step, converse direction. -/
theorem bool_or_true_not_and (a b : Bool) (h : (a || b) = true) : (!a && !b) = false := by
  revert h; cases a <;> cases b <;> decide

/-- Boolean de Morgan step: a passed skip test means both prefix tests failed. -/
theorem bool_not_and_true (a b : Bool) (h : (!a && !b) = true) : (a || b) = false := by
  revert h; cases a <;> cases b <;> decide

/-- An anchor passing the loop's prefix test is accepted. -/
theorem acceptedHref_of_not_skip {link : Anchor}
    (h : (!strStartsWith (pyStrip link.href) "/news" &&
            !strStartsWith (pyStrip link.href) "https://www.bbc.com/news") = false) :
    acceptedHref link = true :=
  bool_not_and_false _ _ h

/-- An anchor whose stripped href is empty is never accepted. -/
theorem not_acceptedHref_of_empty {link : Anchor} (h : pyStrip link.href = "") :
    acceptedHref link = false := by
  unfold acceptedHref
  rw [h]
  rfl

/-- An anchor resolving to a different URL does not claim `u`. -/
theorem producesFor_false_of_ne {base u : String} {link : Anchor}
    (h : urljoin base (pyStrip link.href) ≠ u) : producesFor base u link = false := by
  cases hp : producesFor base u link
  · rfl
  · exfalso
    simp only [producesFor, Bool.and_eq_true] at hp
    exact h (eq_of_beq hp.1.2)

/-- An anchor with empty visible text claims no URL. -/
theorem producesFor_false_of_empty_text {base u : String} {link : Anchor}
    (h : pyStrip link.text = "") : producesFor base u link = false := by
  simp [producesFor, h]

/-- A rejected anchor claims no URL. -/
theorem producesFor_false_of_not_accepted {base u : String} {link : Anchor}
    (h : acceptedHref link = false) : producesFor base u link = false := by
  simp [producesFor, h]

/-- `find?` skips an element on which the predicate is false. -/
theorem find_cons_neg {α : Type} {p : α → Bool} {a x : α} {l : List α}
    (hp : p a = false) (h : l.find? p = some x) : (a :: l).find? p = some x := by
  rw [List.find?_cons_of_neg _ (by simp [hp])]; exact h

/-- Master invariant of the extraction loop: every produced record is a
two-key `title`/`url` record with non-empty fields, its URL is fresh with
respect to `seen`, and its title comes from the first anchor in the remaining
document that actually claims that URL. -/
theorem parse_loop_shape (base : String) (l : List Anchor) : ∀ (seen : List String),
    ∀ r ∈ parse_articles_loop base l seen, ∃ t u, r = [("title", t), ("url", u)] ∧
      t ≠ "" ∧ u ≠ "" ∧ u ∉ seen ∧
      ∃ a₀, l.find? (producesFor base u) = some a₀ ∧ t = pyStrip a₀.text := by
  induction l with
  | nil => intro seen r hr; simp [parse_articles_loop] at hr
  | cons link rest ih =>
    intro seen r hr
    simp only [parse_articles_loop] at hr
    by_cases h1 : pyStrip link.href = ""
    · rw [if_pos h1] at hr
      obtain ⟨t, u, hru, ht, hu, hseen, a₀, hfind, hta⟩ := ih seen r hr
      exact ⟨t, u, hru, ht, hu, hseen, a₀,
        find_cons_neg (producesFor_false_of_not_accepted (not_acceptedHref_of_empty h1)) hfind,
        hta⟩
    · rw [if_neg h1] at hr
      by_cases h2 : (!strStartsWith (pyStrip link.href) "/news" &&
          !strStartsWith (pyStrip link.href) "https://www.bbc.com/news") = true
      · rw [if_pos h2] at hr
        obtain ⟨t, u, hru, ht, hu, hseen, a₀, hfind, hta⟩ := ih seen r hr
        refine ⟨t, u, hru, ht, hu, hseen, a₀, find_cons_neg ?_ hfind, hta⟩
        exact producesFor_false_of_not_accepted (bool_not_and_true _ _ h2)
      · rw [if_neg h2] at hr
        by_cases h3 : urljoin base (pyStrip link.href) ∈ seen
        · rw [if_pos h3] at hr
          obtain ⟨t, u, hru, ht, hu, hseen, a₀, hfind, hta⟩ := ih seen r hr
          refine ⟨t, u, hru, ht, hu, hseen, a₀, find_cons_neg ?_ hfind, hta⟩
          apply producesFor_false_of_ne
          intro hequrl
          rw [hequrl] at h3
          exact hseen h3
        · rw [if_neg h3] at hr
          by_cases h4 : pyStrip link.text = ""
          · rw [if_pos h4] at hr
            obtain ⟨t, u, hru, ht, hu, hseen, a₀, hfind, hta⟩ := ih seen r hr
            exact ⟨t, u, hru, ht, hu, hseen, a₀,
              find_cons_neg (producesFor_false_of_empty_text h4) hfind, hta⟩
          · rw [if_neg h4] at hr
            rcases List.mem_cons.mp hr with hhead | htail
            · refine ⟨pyStrip link.text, urljoin base (pyStrip link.href), hhead, h4,
                urljoin_ne_empty _ _ h1, h3, link, ?_, rfl⟩
              apply List.find?_cons_of_pos
              have hacc : acceptedHref link = true :=
                acceptedHref_of_not_skip (Bool.eq_false_iff.mpr h2)
              simp [producesFor, hacc, h4]
            · obtain ⟨t, u, hru, ht, hu, hseen, a₀, hfind, hta⟩ := ih _ r htail
              rw [List.mem_cons] at hseen
              push_neg at hseen
              refine ⟨t, u, hru, ht, hu, hseen.2, a₀, find_cons_neg ?_ hfind, hta⟩
              apply producesFor_false_of_ne
              intro hequrl
              exact hseen.1 hequrl.symm

/-- URLs of the records produced by the extraction loop are pairwise distinct
and avoid the incoming `seen` set. -/
theorem parse_loop_nodup (base : String) (l : List Anchor) : ∀ (seen : List String),
    ((parse_articles_loop base l seen).map (fun r => dictGet r "url")).Nodup := by
  induction l with
  | nil => intro seen; simp [parse_articles_loop]
  | cons link rest ih =>
    intro seen
    simp only [parse_articles_loop]
    by_cases h1 : pyStrip link.href = ""
    · rw [if_pos h1]; exact ih seen
    · rw [if_neg h1]
      by_cases h2 : (!strStartsWith (pyStrip link.href) "/news" &&
          !strStartsWith (pyStrip link.href) "https://www.bbc.com/news") = true
      · rw [if_pos h2]; exact ih seen
      · rw [if_neg h2]
        by_cases h3 : urljoin base (pyStrip link.href) ∈ seen
        · rw [if_pos h3]; exact ih seen
        · rw [if_neg h3]
          by_cases h4 : pyStrip link.text = ""
          · rw [if_pos h4]; exact ih seen
          · rw [if_neg h4]
            rw [List.map_cons, List.nodup_cons]
            refine ⟨?_, ih _⟩
            intro hmem
            rw [List.mem_map] at hmem
            obtain ⟨r, hr, heq⟩ := hmem
            obtain ⟨t, u, hru, _, _, hseen, _⟩ :=
              parse_loop_shape base rest (urljoin base (pyStrip link.href) :: seen) r hr
            rw [hru, dictGet_url, dictGet_url] at heq
            rw [Option.some_inj] at heq
            rw [heq] at hseen
            exact hseen (List.mem_cons_self _ _)

/-- Anchors rejected by the href test are invisible: filtering them away first
does not change the extraction result. -/
theorem parse_loop_filter (base : String) (l : List Anchor) : ∀ (seen : List String),
    parse_articles_loop base l seen = parse_articles_loop base (l.filter acceptedHref) seen := by
  induction l with
  | nil => intro seen; rfl
  | cons link rest ih =>
    intro seen
    by_cases hacc : acceptedHref link = true
    · rw [List.filter_cons_of_pos hacc]
      simp only [parse_articles_loop]
      have h1 : pyStrip link.href ≠ "" := by
        intro h
        rw [not_acceptedHref_of_empty h] at hacc
        exact Bool.false_ne_true hacc
      rw [if_neg h1, if_neg h1]
      have h2 : (!strStartsWith (pyStrip link.href) "/news" &&
          !strStartsWith (pyStrip link.href) "https://www.bbc.com/news") = false :=
        bool_or_true_not_and _ _ hacc
      have h2' : ¬((!strStartsWith (pyStrip link.href) "/news" &&
          !strStartsWith (pyStrip link.href) "https://www.bbc.com/news") = true) := by
        rw [h2]; exact Bool.false_ne_true
      rw [if_neg h2', if_neg h2']
      by_cases h3 : urljoin base (pyStrip link.href) ∈ seen
      · rw [if_pos h3, if_pos h3]; exact ih seen
      · rw [if_neg h3, if_neg h3]
        by_cases h4 : pyStrip link.text = ""
        · rw [if_pos h4, if_pos h4]; exact ih seen
        · rw [if_neg h4, if_neg h4, ih _]
    · rw [List.filter_cons_of_neg hacc]
      simp only [parse_articles_loop]
      have hacc' : acceptedHref link = false := Bool.eq_false_iff.mpr hacc
      by_cases h1 : pyStrip link.href = ""
      · rw [if_pos h1]; exact ih seen
      · rw [if_neg h1]
        have h2 : (!strStartsWith (pyStrip link.href) "/news" &&
            !strStartsWith (pyStrip link.href) "https://www.bbc.com/news") = true := by
          have hor : (strStartsWith (pyStrip link.href) "/news" ||
              strStartsWith (pyStrip link.href) "https://www.bbc.com/news") = false := hacc'
          revert hor
          cases strStartsWith (pyStrip link.href) "/news" <;>
            cases strStartsWith (pyStrip link.href) "https://www.bbc.com/news" <;> decide
        rw [if_pos h2]
        exact ih seen

/-- An anchor whose stripped visible text is empty is skipped without touching
`seen_urls`, whatever its href. -/
theorem parse_loop_skip_empty_text (base : String) (link : Anchor)
    (h : pyStrip link.text = "") (rest : List Anchor) (seen : List String) :
    parse_articles_loop base (link :: rest) seen = parse_articles_loop base rest seen := by
  simp only [parse_articles_loop]
  by_cases h1 : pyStrip link.href = ""
  · rw [if_pos h1]
  · rw [if_neg h1]
    by_cases h2 : (!strStartsWith (pyStrip link.href) "/news" &&
        !strStartsWith (pyStrip link.href) "https://www.bbc.com/news") = true
    · rw [if_pos h2]
    · rw [if_neg h2]
      by_cases h3 : urljoin base (pyStrip link.href) ∈ seen
      · rw [if_pos h3]
      · rw [if_neg h3, if_pos h]

/-- Two anchor suffixes that extract identically from every `seen` set still
extract identically after any common prefix of anchors. -/
theorem parse_loop_append_congr (base : String) (mid₁ mid₂ : List Anchor)
    (h : ∀ seen, parse_articles_loop base mid₁ seen = parse_articles_loop base mid₂ seen) :
    ∀ (pre : List Anchor) (seen : List String),
      parse_articles_loop base (pre ++ mid₁) seen = parse_articles_loop base (pre ++ mid₂) seen := by
  intro pre
  induction pre with
  | nil => intro seen; exact h seen
  | cons link rest ih =>
    intro seen
    rw [List.cons_append, List.cons_append]
    simp only [parse_articles_loop]
    by_cases h1 : pyStrip link.href = ""
    · rw [if_pos h1, if_pos h1]; exact ih seen
    · rw [if_neg h1, if_neg h1]
      by_cases h2 : (!strStartsWith (pyStrip link.href) "/news" &&
          !strStartsWith (pyStrip link.href) "https://www.bbc.com/news") = true
      · rw [if_pos h2, if_pos h2]; exact ih seen
      · rw [if_neg h2, if_neg h2]
        by_cases h3 : urljoin base (pyStrip link.href) ∈ seen
        · rw [if_pos h3, if_pos h3]; exact ih seen
        · rw [if_neg h3, if_neg h3]
          by_cases h4 : pyStrip link.text = ""
          · rw [if_pos h4, if_pos h4]; exact ih seen
          · rw [if_neg h4, if_neg h4, ih _]

/-- Every record the RSS loop emits carries the four fixed keys and a
non-empty stripped title and link. -/
theorem fetch_rss_loop_shape (l : List Entry) : ∀ r ∈ fetch_rss_loop l,
    ∃ t u p s, r = [("title", t), ("url", u), ("published", p), ("summary", s)] ∧
      t ≠ "" ∧ u ≠ "" := by
  induction l with
  | nil => intro r hr; simp [fetch_rss_loop] at hr
  | cons e rest ih =>
    intro r hr
    simp only [fetch_rss_loop] at hr
    by_cases h : pyStrip (e.title.getD "") = "" ∨ pyStrip (e.link.getD "") = ""
    · rw [if_pos h] at hr; exact ih r hr
    · rw [if_neg h] at hr
      push_neg at h
      rcases List.mem_cons.mp hr with hh | ht
      · exact ⟨_, _, _, _, hh, h.1, h.2⟩
      · exact ih r ht

/-- An entry with an empty stripped title or link is skipped entirely. -/
theorem fetch_rss_loop_skip (entry : Entry) (rest : List Entry)
    (h : pyStrip (entry.title.getD "") = "" ∨ pyStrip (entry.link.getD "") = "") :
    fetch_rss_loop (entry :: rest) = fetch_rss_loop rest := by
  simp only [fetch_rss_loop]
  rw [if_pos h]

/-- The RSS loop is the per-entry partial map `rss_emit` applied in feed
order: entries are converted independently, with no deduplication. -/
theorem fetch_rss_loop_eq_filterMap (l : List Entry) :
    fetch_rss_loop l = l.filterMap rss_emit := by
  induction l with
  | nil => rfl
  | cons e rest ih =>
    by_cases h : pyStrip (e.title.getD "") = "" ∨ pyStrip (e.link.getD "") = ""
    · have he : rss_emit e = none := by simp only [rss_emit]; rw [if_pos h]
      rw [List.filterMap_cons_none he, fetch_rss_loop_skip e rest h, ih]
    · have he : rss_emit e = some [("title", pyStrip (e.title.getD "")),
          ("url", pyStrip (e.link.getD "")), ("published", e.published.getD ""),
          ("summary", e.summary.getD "")] := by
        simp only [rss_emit]; rw [if_neg h]
      rw [List.filterMap_cons_some he]
      simp only [fetch_rss_loop]
      rw [if_neg h, ih]

/-- The Python slice `l[:limit]` is a prefix of `l` of the expected length. -/
theorem pySliceTo_spec (l : List Dict) (limit : Int) :
    pySliceTo l limit <+: l ∧
    (pySliceTo l limit).length =
      if 0 ≤ limit then min limit.toNat l.length else l.length - limit.natAbs := by
  unfold pySliceTo
  split
  · exact ⟨List.take_prefix _ _, by rw [List.length_take]⟩
  · refine ⟨List.take_prefix _ _, ?_⟩
    rw [List.length_take]
    exact Nat.min_eq_left (Nat.sub_le _ _)

/-- `main` is `crawl_articles` followed by the slice `articles[:limit]`. -/
theorem crawler_main_eq (feed : Feed) (fetchResult : Except String String)
    (select : String → List Anchor) (limit : Int) :
    crawler_main feed fetchResult select limit =
      (crawl_articles feed fetchResult select).map (fun l => pySliceTo l limit) := by
  unfold crawler_main crawl_articles
  cases fetch_rss feed with
  | ok a => rfl
  | error e =>
    cases fetchResult with
    | ok html => rfl
    | error e' => rfl

/-- Having a longer prefix implies having any prefix of that prefix. -/
theorem pfx_trans {s p q : String} (hpq : p.data <+: q.data) (h : strStartsWith s q = true) :
    strStartsWith s p = true := by
  rw [strStartsWith, List.isPrefixOf_iff_prefix] at h ⊢
  exact hpq.trans h

/-- A string starting with a cons-shaped pattern starts with its head char. -/
theorem head_of_pfx {s p : String} {c : Char} {cs : List Char} (hp : p.data = c :: cs)
    (h : strStartsWith s p = true) : ∃ tl, s.data = c :: tl := by
  rw [strStartsWith, List.isPrefixOf_iff_prefix] at h
  obtain ⟨t, ht⟩ := h
  rw [hp] at ht
  exact ⟨cs ++ t, by rw [← ht]; rfl⟩

/-- Resolving any accepted href against the default base URL stays on the
base URL's origin `https://www.bbc.com`: accepted absolute hrefs carry it in
their `https://www.bbc.com/news` prefix, and root-relative hrefs are joined
onto the base's scheme and authority (whatever dot-segment removal leaves of
their path). -/
theorem urljoin_bbc_origin (href : String)
    (hacc : (strStartsWith href "/news" ||
      strStartsWith href "https://www.bbc.com/news") = true) :
    strStartsWith (urljoin BBC_NEWS_URL href) "https://www.bbc.com" = true := by
  cases h2 : strStartsWith href "https://www.bbc.com/news" with
  | true =>
    have habs : strStartsWith href "https://" = true := pfx_trans (by decide) h2
    unfold urljoin
    rw [habs, Bool.or_true, if_pos rfl]
    exact pfx_trans (by decide) h2
  | false =>
    have h1 : strStartsWith href "/news" = true := by
      rcases Bool.or_eq_true_iff.mp hacc with h | h
      · exact h
      · rw [h2] at h; exact absurd h Bool.false_ne_true
    obtain ⟨tl, htl⟩ := head_of_pfx (p := "/news") rfl h1
    have hhttp : strStartsWith href "http://" = false := by
      cases hb : strStartsWith href "http://" with
      | false => rfl
      | true =>
        obtain ⟨tl', htl'⟩ := head_of_pfx (p := "http://") rfl hb
        rw [htl] at htl'
        injection htl' with hc _
        exact absurd hc (by decide)
    have hhttps : strStartsWith href "https://" = false := by
      cases hb : strStartsWith href "https://" with
      | false => rfl
      | true =>
        obtain ⟨tl', htl'⟩ := head_of_pfx (p := "https://") rfl hb
        rw [htl] at htl'
        injection htl' with hc _
        exact absurd hc (by decide)
    have hslash : strStartsWith href "/" = true := pfx_trans (by decide) h1
    unfold urljoin
    rw [hhttp, hhttps, Bool.or_self, if_neg (by exact Bool.false_ne_true), if_pos hslash]
    rw [strStartsWith, List.isPrefixOf_iff_prefix]
    have hsa : schemeAuthChars BBC_NEWS_URL.data = "https://www.bbc.com".data := by decide
    rw [show (String.mk (schemeAuthChars BBC_NEWS_URL.data ++ resolvePath href.data)).data
        = schemeAuthChars BBC_NEWS_URL.data ++ resolvePath href.data from rfl, hsa]
    exact List.prefix_append _ _

/-!
Claim theorems.
-/

/-- C1 (amended): for every assembled record list and every integer limit the
orchestrator's truncation returns a prefix of the records (first records in
output order, relative order preserved); for `limit ≥ 0` the result has length
`min limit count` — so `limit = 0` yields an empty result and a limit
exceeding the record count yields all records; a negative limit yields the
first `count - |limit|` records (all but the last `|limit|`), not an empty
result. -/
theorem C1_truncation (feed : Feed) (fetchResult : Except String String)
    (select : String → List Anchor) (limit : Int) (articles : List Dict)
    (h : crawl_articles feed fetchResult select = Except.ok articles) :
    crawler_main feed fetchResult select limit = Except.ok (pySliceTo articles limit) ∧
    pySliceTo articles limit <+: articles ∧
    (pySliceTo articles limit).length =
      if 0 ≤ limit then min limit.toNat articles.length
      else articles.length - limit.natAbs := by
  refine ⟨?_, (pySliceTo_spec articles limit).1, (pySliceTo_spec articles limit).2⟩
  rw [crawler_main_eq, h]
  rfl

/-- Witness for C1: a successful RSS run with one record and limit 5. -/
theorem C1_truncation_witness :
    crawler_main (Feed.mk false [Entry.mk (some "A") (some "https://a.example/1") none none])
        (Except.ok "") (fun _ => []) 5
      = Except.ok (pySliceTo
          [[("title", "A"), ("url", "https://a.example/1"), ("published", ""), ("summary", "")]] 5) ∧
    pySliceTo [[("title", "A"), ("url", "https://a.example/1"), ("published", ""), ("summary", "")]] 5
      <+: [[("title", "A"), ("url", "https://a.example/1"), ("published", ""), ("summary", "")]] ∧
    (pySliceTo [[("title", "A"), ("url", "https://a.example/1"), ("published", ""),
        ("summary", "")]] 5).length =
      if 0 ≤ (5 : Int) then min (5 : Int).toNat
        [[("title", "A"), ("url", "https://a.example/1"), ("published", ""), ("summary", "")]].length
      else [[("title", "A"), ("url", "https://a.example/1"), ("published", ""), ("summary", "")]].length
        - (5 : Int).natAbs :=
  C1_truncation _ _ _ 5 _ rfl

/-- C1 counterexample: with two fallback records and `limit = -1` (≤ 0), the
orchestrator returns the first record, not the empty list the claim predicts:
Python's `articles[:-1]` keeps all but the last record. -/
theorem C1_counterexample :
    crawler_main (Feed.mk true []) (Except.ok "")
        (fun _ => [Anchor.mk "/news/one" "One", Anchor.mk "/news/two" "Two"]) (-1)
      = Except.ok [[("title", "One"), ("url", "https://www.bbc.com/news/one")]] ∧
    ([[("title", "One"), ("url", "https://www.bbc.com/news/one")]] : List Dict) ≠ [] :=
  ⟨rfl, by decide⟩

/-- C2: for every HTML document, every record of `parse_articles` has exactly
the keys `title` and `url` (no `published` or `summary` key), both values are
non-empty, and the `url` values of one output are pairwise distinct. -/
theorem C2_record_shape (base : String) (anchors : List Anchor) :
    (∀ r ∈ parse_articles base anchors, dictKeys r = ["title", "url"] ∧
      ∃ t u, r = [("title", t), ("url", u)] ∧ t ≠ "" ∧ u ≠ "") ∧
    ((parse_articles base anchors).map (fun r => dictGet r "url")).Nodup := by
  constructor
  · intro r hr
    obtain ⟨t, u, hru, ht, hu, _, _, _, _⟩ := parse_loop_shape base anchors [] r hr
    exact ⟨by rw [hru]; rfl, t, u, hru, ht, hu⟩
  · exact parse_loop_nodup base anchors []

/-- Witness for C2 on the record produced by a single `/news` anchor. -/
theorem C2_witness :
    dictKeys [("title", "One"), ("url", "https://www.bbc.com/news/one")] = ["title", "url"] ∧
    ∃ t u, ([("title", "One"), ("url", "https://www.bbc.com/news/one")] : Dict)
        = [("title", t), ("url", u)] ∧ t ≠ "" ∧ u ≠ "" :=
  (C2_record_shape BBC_NEWS_URL [Anchor.mk "/news/one" "One"]).1
    [("title", "One"), ("url", "https://www.bbc.com/news/one")] (by decide)

/-- C3: an anchor produces a record only if its stripped href starts with
`/news` or `https://www.bbc.com/news`; all other hrefs (external links,
fragments, `javascript:`, `mailto:`, empty after stripping, …) produce no
record and do not influence the output — filtering them away first changes
nothing, and every record traces back to an accepted anchor. -/
theorem C3_href_filter (base : String) (anchors : List Anchor) :
    parse_articles base anchors = parse_articles base (anchors.filter acceptedHref) ∧
    ∀ r ∈ parse_articles base anchors, ∃ link ∈ anchors, acceptedHref link = true := by
  refine ⟨parse_loop_filter base anchors [], ?_⟩
  intro r hr
  obtain ⟨t, u, _, _, _, _, a₀, hfind, _⟩ := parse_loop_shape base anchors [] r hr
  refine ⟨a₀, List.mem_of_find?_eq_some hfind, ?_⟩
  have hp := List.find?_some hfind
  simp only [producesFor, Bool.and_eq_true] at hp
  exact hp.1.1

/-- Witness for C3: in a document with an external anchor and a `/news`
anchor, the record traces back to an accepted anchor. -/
theorem C3_witness :
    ∃ link ∈ [Anchor.mk "https://other.example/x" "Ext", Anchor.mk "/news/one" "One"],
      acceptedHref link = true :=
  (C3_href_filter BBC_NEWS_URL
      [Anchor.mk "https://other.example/x" "Ext", Anchor.mk "/news/one" "One"]).2
    [("title", "One"), ("url", "https://www.bbc.com/news/one")] (by decide)

/-- C4: every emitted record comes from an accepted anchor of the document,
and its `url` field is exactly the URL-join resolution of that anchor's
stripped href against the extractor's base URL. -/
theorem C4_url_resolution (base : String) (anchors : List Anchor) :
    ∀ r ∈ parse_articles base anchors, ∃ link ∈ anchors, acceptedHref link = true ∧
      r = [("title", pyStrip link.text), ("url", urljoin base (pyStrip link.href))] := by
  intro r hr
  obtain ⟨t, u, hru, _, _, _, a₀, hfind, hta⟩ := parse_loop_shape base anchors [] r hr
  have hp := List.find?_some hfind
  simp only [producesFor, Bool.and_eq_true] at hp
  refine ⟨a₀, List.mem_of_find?_eq_some hfind, hp.1.1, ?_⟩
  rw [hru, hta, ← eq_of_beq hp.1.2]

/-- Witness for C4 on an anchor whose href carries extra whitespace and a dot
segment: the record's url is the standard resolution
`https://www.bbc.com/sport`, with the dot segment removed. -/
theorem C4_witness :
    ∃ link ∈ [Anchor.mk " /news/../sport " " Sport "], acceptedHref link = true ∧
      ([("title", "Sport"), ("url", "https://www.bbc.com/sport")] : Dict)
        = [("title", pyStrip link.text), ("url", urljoin BBC_NEWS_URL (pyStrip link.href))] :=
  C4_url_resolution BBC_NEWS_URL [Anchor.mk " /news/../sport " " Sport "]
    [("title", "Sport"), ("url", "https://www.bbc.com/sport")] (by decide)

/-- C5 counterexample: two anchors resolve to the same URL and the first has
whitespace-only visible text.  The single emitted record takes the second
anchor's text `"Second"` — not the first anchor's visible text (whether taken
raw as `"  "` or stripped to `""`), contradicting the claim that the record
uses the first such anchor's visible text. -/
theorem C5_counterexample :
    parse_articles BBC_NEWS_URL [Anchor.mk "/news/x" "  ", Anchor.mk "/news/x" "Second"]
      = [[("title", "Second"), ("url", "https://www.bbc.com/news/x")]] ∧
    pyStrip "  " = "" ∧ ("Second" : String) ≠ "  " :=
  ⟨rfl, rfl, by decide⟩

/-- C5 (amended): at most one record is emitted per resolved URL, and its
title is the visible text of the first anchor that actually produces a record
for that URL — the first anchor whose stripped href is accepted, resolves to
that URL, and whose stripped text is non-empty; later anchors to the same
resolved URL are silently discarded even if their visible text differs.  (An
earlier same-URL anchor with empty visible text does not claim the URL.) -/
theorem C5_dedup_first_producer (base : String) (anchors : List Anchor) :
    ((parse_articles base anchors).map (fun r => dictGet r "url")).Nodup ∧
    ∀ r ∈ parse_articles base anchors, ∃ t u, r = [("title", t), ("url", u)] ∧
      ∃ a₀, anchors.find? (producesFor base u) = some a₀ ∧ t = pyStrip a₀.text := by
  refine ⟨parse_loop_nodup base anchors [], ?_⟩
  intro r hr
  obtain ⟨t, u, hru, _, _, _, a₀, hfind, hta⟩ := parse_loop_shape base anchors [] r hr
  exact ⟨t, u, hru, a₀, hfind, hta⟩

/-- Witness for C5 on the duplicate-URL document of the counterexample. -/
theorem C5_witness :
    ∃ t u, ([("title", "Second"), ("url", "https://www.bbc.com/news/x")] : Dict)
        = [("title", t), ("url", u)] ∧
      ∃ a₀, [Anchor.mk "/news/x" "  ", Anchor.mk "/news/x" "Second"].find?
          (producesFor BBC_NEWS_URL u) = some a₀ ∧ t = pyStrip a₀.text :=
  (C5_dedup_first_producer BBC_NEWS_URL
      [Anchor.mk "/news/x" "  ", Anchor.mk "/news/x" "Second"]).2
    [("title", "Second"), ("url", "https://www.bbc.com/news/x")] (by decide)

/-- C6: `fetch_rss` never emits a record with an empty stripped title or link
— every emitted record has non-empty `title` and `url` values, and an entry
with an empty stripped title or link is skipped entirely; whenever the feed
reports the bozo condition, `fetch_rss` raises before returning any records. -/
theorem C6_rss_guards (feed : Feed) :
    (feed.bozo = true → ∃ msg, fetch_rss feed = Except.error msg) ∧
    (∀ items, fetch_rss feed = Except.ok items → ∀ r ∈ items,
      ∃ t u p s, r = [("title", t), ("url", u), ("published", p), ("summary", s)] ∧
        t ≠ "" ∧ u ≠ "") ∧
    (∀ entry rest, (pyStrip (entry.title.getD "") = "" ∨ pyStrip (entry.link.getD "") = "") →
      fetch_rss_loop (entry :: rest) = fetch_rss_loop rest) := by
  refine ⟨?_, ?_, fun entry rest h => fetch_rss_loop_skip entry rest h⟩
  · intro hb
    refine ⟨"Failed to parse RSS feed", ?_⟩
    unfold fetch_rss
    rw [if_pos hb]
  · intro items hok r hr
    unfold fetch_rss at hok
    by_cases hb : feed.bozo = true
    · rw [if_pos hb] at hok
      simp at hok
    · rw [if_neg hb] at hok
      injection hok with hok'
      exact fetch_rss_loop_shape _ r (hok' ▸ hr)

/-- Witness for C6: a bozo feed errors; a well-formed record is non-empty. -/
theorem C6_witness :
    (∃ msg, fetch_rss (Feed.mk true []) = Except.error msg) ∧
    (∃ t u p s, ([("title", "A"), ("url", "https://a.example/1"),
        ("published", ""), ("summary", "")] : Dict)
        = [("title", t), ("url", u), ("published", p), ("summary", s)] ∧ t ≠ "" ∧ u ≠ "") :=
  ⟨(C6_rss_guards (Feed.mk true [])).1 rfl,
    (C6_rss_guards (Feed.mk false [Entry.mk (some "A") (some "https://a.example/1") none none])).2.1
      [[("title", "A"), ("url", "https://a.example/1"), ("published", ""), ("summary", "")]] rfl
      [("title", "A"), ("url", "https://a.example/1"), ("published", ""), ("summary", "")]
      (by decide)⟩

/-- C7: for every well-formed (non-bozo) feed, `fetch_rss` converts entries
independently in feed order with no deduplication (it is the per-entry map
`rss_emit` applied by `filterMap`, so duplicate URLs pass through unchanged);
each record carries exactly the four keys `title`, `url`, `published`,
`summary`, with `published`/`summary` the empty string — not a missing key —
when absent from the entry. -/
theorem C7_rss_records (feed : Feed) (h : feed.bozo = false) :
    fetch_rss feed = Except.ok (feed.entries.filterMap rss_emit) ∧
    (∀ r ∈ feed.entries.filterMap rss_emit,
      dictKeys r = ["title", "url", "published", "summary"]) ∧
    (∀ entry r, rss_emit entry = some r →
      (entry.published = none → dictGet r "published" = some "") ∧
      (entry.summary = none → dictGet r "summary" = some "")) := by
  refine ⟨?_, ?_, ?_⟩
  · unfold fetch_rss
    rw [if_neg (by rw [h]; exact Bool.false_ne_true), fetch_rss_loop_eq_filterMap]
  · intro r hr
    rw [← fetch_rss_loop_eq_filterMap] at hr
    obtain ⟨t, u, p, s, hru, _, _⟩ := fetch_rss_loop_shape feed.entries r hr
    rw [hru]; rfl
  · intro entry r he
    by_cases hc : pyStrip (entry.title.getD "") = "" ∨ pyStrip (entry.link.getD "") = ""
    · rw [show rss_emit entry = none from by simp only [rss_emit]; rw [if_pos hc]] at he
      simp at he
    · have he' : rss_emit entry = some [("title", pyStrip (entry.title.getD "")),
          ("url", pyStrip (entry.link.getD "")), ("published", entry.published.getD ""),
          ("summary", entry.summary.getD "")] := by
        simp only [rss_emit]; rw [if_neg hc]
      rw [he'] at he
      rw [Option.some_inj] at he
      constructor
      · intro hp
        rw [← he, dictGet_published, hp]
        rfl
      · intro hs
        rw [← he, dictGet_summary, hs]
        rfl

/-- Witness for C7: a feed with two identical entries passes both through. -/
theorem C7_witness :
    fetch_rss (Feed.mk false [Entry.mk (some "A") (some "https://a.example/1") none none,
        Entry.mk (some "A") (some "https://a.example/1") none none])
      = Except.ok ([Entry.mk (some "A") (some "https://a.example/1") none none,
          Entry.mk (some "A") (some "https://a.example/1") none none].filterMap rss_emit) :=
  (C7_rss_records _ rfl).1

/-- C8: the orchestrator first attempts the RSS path; when it succeeds there
is no fallback; on any error it falls back exactly once to the homepage fetch
followed by `parse_articles` on the fetched HTML; and when that fallback
itself fails, its error propagates unchanged — no second fallback and no
combining of sources. -/
theorem C8_fallback (feed : Feed) (fetchResult : Except String String)
    (select : String → List Anchor) (limit : Int) :
    (∀ items, fetch_rss feed = Except.ok items →
      crawler_main feed fetchResult select limit = Except.ok (pySliceTo items limit)) ∧
    (∀ msg html, fetch_rss feed = Except.error msg → fetchResult = Except.ok html →
      crawler_main feed fetchResult select limit
        = Except.ok (pySliceTo (parse_articles BBC_NEWS_URL (select html)) limit)) ∧
    (∀ msg err, fetch_rss feed = Except.error msg → fetchResult = Except.error err →
      crawler_main feed fetchResult select limit = Except.error err) := by
  refine ⟨?_, ?_, ?_⟩
  · intro items h
    unfold crawler_main
    rw [h]
  · intro msg html h1 h2
    unfold crawler_main
    rw [h1, h2]
  · intro msg err h1 h2
    unfold crawler_main
    rw [h1, h2]

/-- Witness for C8: a bozo feed triggers exactly the HTML fallback. -/
theorem C8_witness :
    crawler_main (Feed.mk true []) (Except.ok "<html>")
        (fun _ => [Anchor.mk "/news/one" "One"]) 20
      = Except.ok (pySliceTo (parse_articles BBC_NEWS_URL [Anchor.mk "/news/one" "One"]) 20) :=
  (C8_fallback (Feed.mk true []) (Except.ok "<html>")
      (fun _ => [Anchor.mk "/news/one" "One"]) 20).2.1
    "Failed to parse RSS feed" "<html>" rfl rfl

/-- C9: a resolved URL is recorded as seen only when a record is actually
emitted for it — an anchor whose stripped visible text is empty is a complete
no-op, so deleting it from the document changes nothing, and in particular a
later anchor with the same resolved URL and non-empty text still produces a
record. -/
theorem C9_empty_text_invisible (base : String) (link : Anchor)
    (h : pyStrip link.text = "") (pre post : List Anchor) :
    parse_articles base (pre ++ link :: post) = parse_articles base (pre ++ post) :=
  parse_loop_append_congr base (link :: post) post
    (fun seen => parse_loop_skip_empty_text base link h post seen) pre []

/-- Witness for C9: dropping a whitespace-text anchor leaves the same-URL
extraction unchanged (and the later anchor's record survives, per C5's
counterexample evaluation). -/
theorem C9_witness :
    parse_articles BBC_NEWS_URL [Anchor.mk "/news/x" "  ", Anchor.mk "/news/x" "Second"]
      = parse_articles BBC_NEWS_URL [Anchor.mk "/news/x" "Second"] :=
  C9_empty_text_invisible BBC_NEWS_URL (Anchor.mk "/news/x" "  ") rfl []
    [Anchor.mk "/news/x" "Second"]

/-- C10 counterexample: the href `/news/../sport` passes the `/news` prefix
filter, but standard resolution removes the dot segment and the record's url
is `https://www.bbc.com/sport`, which does not start with
`https://www.bbc.com/news`. -/
theorem C10_counterexample :
    parse_articles BBC_NEWS_URL [Anchor.mk "/news/../sport" "Sport"]
      = [[("title", "Sport"), ("url", "https://www.bbc.com/sport")]] ∧
    strStartsWith "https://www.bbc.com/sport" "https://www.bbc.com/news" = false :=
  ⟨rfl, rfl⟩

/-- C10 (amended): with the default base URL `https://www.bbc.com/news`,
every `url` value in the output of `parse_articles` starts with the base
URL's origin `https://www.bbc.com`: accepted root-relative hrefs resolve
under that host — though dot segments such as `/news/../sport` can escape
the `/news` path while staying on the host — and accepted absolute hrefs
already carry the full `https://www.bbc.com/news` prefix. -/
theorem C10_origin_invariant (anchors : List Anchor) :
    ∀ r ∈ parse_articles BBC_NEWS_URL anchors, ∃ u, dictGet r "url" = some u ∧
      strStartsWith u "https://www.bbc.com" = true := by
  intro r hr
  obtain ⟨t, u, hru, _, _, _, a₀, hfind, _⟩ := parse_loop_shape BBC_NEWS_URL anchors [] r hr
  have hp := List.find?_some hfind
  simp only [producesFor, Bool.and_eq_true] at hp
  refine ⟨u, by rw [hru, dictGet_url], ?_⟩
  rw [← eq_of_beq hp.1.2]
  exact urljoin_bbc_origin (pyStrip a₀.href) hp.1.1

/-- Witness for C10 on the dot-segment anchor of the counterexample. -/
theorem C10_witness :
    ∃ u, dictGet [("title", "Sport"), ("url", "https://www.bbc.com/sport")] "url" = some u ∧
      strStartsWith u "https://www.bbc.com" = true :=
  C10_origin_invariant [Anchor.mk "/news/../sport" "Sport"]
    [("title", "Sport"), ("url", "https://www.bbc.com/sport")] (by decide)
